import Mathlib

/-!
A shallow embedding of the ClaudePoint checkpoint engine
(src/lib/checkpoint-manager.js of the ClaudePoint repository, together
with the published variant of the same class that adds an anti-spam
cooldown), and theorems checking the natural-language specification
against it.

Modelling conventions:
* A file tree is an association list from relative paths to file
  contents.  Earlier entries shadow later ones and all reasoning is
  extensional via List.lookup, which returns the first matching entry,
  exactly as overwriting a file replaces the visible content.
* File contents are opaque natural numbers.  The sha256 content digest
  is modelled as the content itself, i.e. as an injective digest: the
  engine relies on the absence of hash collisions.
* Reading a file either yields its content or fails; an environment
  env : Path → Option Nat stands for the file system, none meaning the
  file cannot be read.
* Asynchronous JavaScript methods are sequential in the source (each
  call is awaited), so they are embedded as pure functions.
-/

namespace ClaudePoint

abbrev Path := String

abbrev FileMap := List (Path × Nat)

/-- Keys of a file map (the relative paths it mentions). -/
def keysOf (m : FileMap) : List Path := m.map Prod.fst

/-- Lookup in the concatenation of two file maps: the left map shadows
the right one. -/
theorem lookup_append (p : Path) (a b : FileMap) :
    List.lookup p (a ++ b) = (List.lookup p a).or (List.lookup p b) := by
  induction a with
  | nil => simp [List.lookup]
  | cons kv rest ih =>
    obtain ⟨k, v⟩ := kv
    by_cases h : p = k
    · have hbeq : (p == k) = true := beq_iff_eq.mpr h
      simp [List.lookup, hbeq]
    · have hbeq : (p == k) = false := beq_eq_false_iff_ne.mpr h
      simp [List.lookup, hbeq, ih]

/-- Lookup after filtering a file map by a predicate on the path. -/
theorem lookup_filter (P : Path → Bool) (m : FileMap) (p : Path) :
    List.lookup p (m.filter (fun pc => P pc.1)) =
      if P p then List.lookup p m else none := by
  induction m with
  | nil => simp [List.lookup]
  | cons kv rest ih =>
    obtain ⟨k, v⟩ := kv
    by_cases h : p = k
    · subst h
      have hbeq : (p == p) = true := beq_iff_eq.mpr rfl
      by_cases hP : P p
      · simp [List.filter, List.lookup, hP, hbeq]
      · simp only [List.filter, hP]
        simp [List.lookup, ih, hP]
    · have hbeq : (p == k) = false := beq_eq_false_iff_ne.mpr h
      by_cases hP : P k
      · simp only [List.filter, hP]
        simp [List.lookup, hbeq, ih]
      · simp only [List.filter, hP]
        simp [List.lookup, hbeq, ih]

/-- A lookup succeeds exactly when the path occurs among the keys. -/
theorem lookup_isSome_iff (p : Path) (m : FileMap) :
    (List.lookup p m).isSome ↔ p ∈ keysOf m := by
  induction m with
  | nil => simp [List.lookup, keysOf]
  | cons kv rest ih =>
    obtain ⟨k, v⟩ := kv
    by_cases h : p = k
    · have hbeq : (p == k) = true := beq_iff_eq.mpr h
      simp [List.lookup, hbeq, keysOf, h]
    · have hbeq : (p == k) = false := beq_eq_false_iff_ne.mpr h
      simp only [List.lookup, hbeq, keysOf, List.map_cons, List.mem_cons]
      rw [ih]
      simp only [keysOf]
      constructor
      · intro hm; exact Or.inr hm
      · rintro (hk | hm)
        · exact absurd hk h
        · exact hm

/-- A lookup fails exactly when the path is absent from the keys. -/
theorem lookup_eq_none_iff (p : Path) (m : FileMap) :
    List.lookup p m = none ↔ p ∉ keysOf m := by
  rw [← lookup_isSome_iff]
  cases List.lookup p m <;> simp

/-- Membership in a file map determines the looked-up value is one of
the stored values for that key; for maps built with a single value per
key this pins the lookup down. -/
theorem lookup_eq_some_of_mem (p : Path) (h : Nat) (m : FileMap)
    (hm : (p, h) ∈ m) (huniq : ∀ h2, (p, h2) ∈ m → h2 = h) :
    List.lookup p m = some h := by
  induction m with
  | nil => cases hm
  | cons kv rest ih =>
    obtain ⟨k, v⟩ := kv
    by_cases hk : p = k
    · subst hk
      have : v = h := huniq v (List.mem_cons_self _ _)
      have hbeq : (p == p) = true := beq_iff_eq.mpr rfl
      simp [List.lookup, hbeq, this]
    · have hbeq : (p == k) = false := beq_eq_false_iff_ne.mpr hk
      simp only [List.lookup, hbeq]
      rcases List.mem_cons.mp hm with hc | hc
      · exact absurd (congrArg Prod.fst hc) hk
      · exact ih hc (fun h2 hh2 => huniq h2 (List.mem_cons_of_mem _ hh2))

/-! ## 4.1 Fingerprinter (calculateFileHash / calculateFileHashes) -/

/-- calculateFileHash (source lines 183-191): digest one file, or none
when the file cannot be read. -/
def calculateFileHash (env : Path → Option Nat) (filePath : Path) : Option Nat :=
  env filePath

/-- calculateFileHashes (source lines 193-204): digest every file in
the list, silently skipping files whose digest cannot be computed. -/
def calculateFileHashes (files : List Path) (env : Path → Option Nat) : FileMap :=
  files.filterMap (fun f => (calculateFileHash env f).map (fun h => (f, h)))

/-- A pair belongs to the fingerprint map exactly when the file is in
the input list and reads with that digest. -/
theorem mem_calculateFileHashes (files : List Path) (env : Path → Option Nat)
    (p : Path) (h : Nat) :
    (p, h) ∈ calculateFileHashes files env ↔ p ∈ files ∧ env p = some h := by
  constructor
  · intro hm
    rcases List.mem_filterMap.mp hm with ⟨f, hf, he⟩
    rcases Option.map_eq_some'.mp he with ⟨h2, hh2, heq⟩
    cases heq
    exact ⟨hf, hh2⟩
  · rintro ⟨hp, he⟩
    exact List.mem_filterMap.mpr ⟨p, hp, by simp [calculateFileHash, he]⟩

/-- Looking a path up in the fingerprint map reads the file when the
path was listed, and fails otherwise. -/
theorem lookup_calculateFileHashes (files : List Path) (env : Path → Option Nat)
    (p : Path) :
    List.lookup p (calculateFileHashes files env) =
      if p ∈ files then env p else none := by
  induction files with
  | nil => simp [calculateFileHashes, List.lookup]
  | cons f rest ih =>
    by_cases hp : p = f
    · subst hp
      cases he : env p with
      | none =>
        simp only [calculateFileHashes, List.filterMap, calculateFileHash, he,
          Option.map_none', List.mem_cons, true_or, if_true]
        have := ih
        simp only [calculateFileHashes, calculateFileHash] at this
        rw [this]
        by_cases hr : p ∈ rest <;> simp [hr, he]
      | some h =>
        simp [calculateFileHashes, List.filterMap, calculateFileHash, he, List.lookup]
    · cases he : env f with
      | none =>
        simp only [calculateFileHashes, List.filterMap, calculateFileHash, he,
          Option.map_none']
        have := ih
        simp only [calculateFileHashes, calculateFileHash] at this
        rw [this]
        simp [List.mem_cons, hp]
      | some h =>
        have hbeq : (p == f) = false := beq_eq_false_iff_ne.mpr hp
        simp only [calculateFileHashes, List.filterMap, calculateFileHash, he,
          Option.map_some']
        simp only [List.lookup, hbeq]
        have := ih
        simp only [calculateFileHashes, calculateFileHash] at this
        rw [this]
        simp [List.mem_cons, hp]

/-! ## 4.2 Change Detector (calculateChanges) -/

/-- The change record produced by the Change Detector. -/
structure Changes where
  added : List Path
  modified : List Path
  deleted : List Path
deriving DecidableEq

/-- JavaScript Map.has: the key is present in the map. -/
def hasKey (m : FileMap) (p : Path) : Bool := (List.lookup p m).isSome

/-- calculateChanges (source lines 219-249): diff the digests of the
current files against the digests recorded by the reference checkpoint.
With no reference checkpoint every current file is added.  Otherwise
each digested current file absent from the reference map is added, one
present with a different digest is modified, and each reference path
absent from the current digest map is deleted. -/
def calculateChanges (currentFiles : List Path) (env : Path → Option Nat)
    (lastHashes : Option FileMap) : Changes :=
  match lastHashes with
  | none => { added := currentFiles, modified := [], deleted := [] }
  | some last =>
    let currentHashes := calculateFileHashes currentFiles env
    { added := (currentHashes.filter (fun fh => !(hasKey last fh.1))).map Prod.fst,
      modified := (currentHashes.filter (fun fh =>
          match List.lookup fh.1 last with
          | some h => h != fh.2
          | none => false)).map Prod.fst,
      deleted := (last.map Prod.fst).filter (fun f => !(hasKey currentHashes f)) }

/-- Membership in the added set of a diff against a reference map. -/
theorem mem_added_iff (currentFiles : List Path) (env : Path → Option Nat)
    (last : FileMap) (p : Path) :
    p ∈ (calculateChanges currentFiles env (some last)).added ↔
      (env p).isSome ∧ p ∈ currentFiles ∧ List.lookup p last = none := by
  simp only [calculateChanges, List.mem_map, List.mem_filter]
  constructor
  · rintro ⟨⟨q, h⟩, ⟨hm, hcond⟩, rfl⟩
    rcases (mem_calculateFileHashes _ _ _ _).mp hm with ⟨hq, he⟩
    refine ⟨by simp [he], hq, ?_⟩
    cases hl : List.lookup q last with
    | none => rfl
    | some h0 => rw [hasKey, hl] at hcond; simp at hcond
  · rintro ⟨hs, hp, hn⟩
    rcases Option.isSome_iff_exists.mp hs with ⟨h, he⟩
    exact ⟨(p, h), ⟨(mem_calculateFileHashes _ _ _ _).mpr ⟨hp, he⟩,
      by simp [hasKey, hn]⟩, rfl⟩

/-- Membership in the modified set of a diff against a reference map. -/
theorem mem_modified_iff (currentFiles : List Path) (env : Path → Option Nat)
    (last : FileMap) (p : Path) :
    p ∈ (calculateChanges currentFiles env (some last)).modified ↔
      p ∈ currentFiles ∧
        ∃ h h0, env p = some h ∧ List.lookup p last = some h0 ∧ h0 ≠ h := by
  simp only [calculateChanges, List.mem_map, List.mem_filter]
  constructor
  · rintro ⟨⟨q, h⟩, ⟨hm, hcond⟩, rfl⟩
    rcases (mem_calculateFileHashes _ _ _ _).mp hm with ⟨hq, he⟩
    cases hl : List.lookup q last with
    | none => rw [hl] at hcond; exact absurd hcond (by simp)
    | some h0 =>
      rw [hl] at hcond
      refine ⟨hq, h, h0, he, rfl, ?_⟩
      exact bne_iff_ne.mp hcond
  · rintro ⟨hp, h, h0, he, hl, hne⟩
    refine ⟨(p, h), ⟨(mem_calculateFileHashes _ _ _ _).mpr ⟨hp, he⟩, ?_⟩, rfl⟩
    rw [hl]
    exact bne_iff_ne.mpr hne

/-- Membership in the deleted set of a diff against a reference map. -/
theorem mem_deleted_iff (currentFiles : List Path) (env : Path → Option Nat)
    (last : FileMap) (p : Path) :
    p ∈ (calculateChanges currentFiles env (some last)).deleted ↔
      p ∈ keysOf last ∧ ¬ (p ∈ currentFiles ∧ (env p).isSome) := by
  simp only [calculateChanges, List.mem_filter, keysOf]
  constructor
  · rintro ⟨hk, hcond⟩
    refine ⟨hk, ?_⟩
    rintro ⟨hp, hs⟩
    rcases Option.isSome_iff_exists.mp hs with ⟨h, he⟩
    have : List.lookup p (calculateFileHashes currentFiles env) = some h := by
      rw [lookup_calculateFileHashes]
      simp [hp, he]
    simp [hasKey, this] at hcond
  · rintro ⟨hk, hn⟩
    refine ⟨hk, ?_⟩
    have : List.lookup p (calculateFileHashes currentFiles env) = none := by
      rw [lookup_calculateFileHashes]
      by_cases hp : p ∈ currentFiles
      · cases he : env p with
        | none => simp [hp, he]
        | some h => exact absurd ⟨hp, by simp [he]⟩ hn
      · simp [hp]
    simp [hasKey, this]

/-- C5: the Change Detector (calculateChanges) classifies paths as the
specification states.  When every current file is readable: with no
reference checkpoint every current file is added and nothing is
modified or deleted; against a reference fingerprint map, a current
file absent from the reference map is added, one present with a
differing digest is modified, one with an equal digest is not reported
(the iff characterisations below leave it out of every set), and each
reference path absent from the current list is deleted; the three sets
are pairwise disjoint; and they cover every path at which the current
fingerprint map and the reference fingerprint map differ. -/
theorem calculateChanges_spec (currentFiles : List Path)
    (env : Path → Option Nat) (last : FileMap)
    (hr : ∀ f ∈ currentFiles, (env f).isSome) :
    (calculateChanges currentFiles env none =
      { added := currentFiles, modified := [], deleted := [] }) ∧
    (∀ p, p ∈ (calculateChanges currentFiles env (some last)).added ↔
      p ∈ currentFiles ∧ List.lookup p last = none) ∧
    (∀ p, p ∈ (calculateChanges currentFiles env (some last)).modified ↔
      p ∈ currentFiles ∧
        ∃ h h0, env p = some h ∧ List.lookup p last = some h0 ∧ h0 ≠ h) ∧
    (∀ p, p ∈ (calculateChanges currentFiles env (some last)).deleted ↔
      p ∈ keysOf last ∧ p ∉ currentFiles) ∧
    (∀ p,
      ¬ (p ∈ (calculateChanges currentFiles env (some last)).added ∧
         p ∈ (calculateChanges currentFiles env (some last)).modified) ∧
      ¬ (p ∈ (calculateChanges currentFiles env (some last)).added ∧
         p ∈ (calculateChanges currentFiles env (some last)).deleted) ∧
      ¬ (p ∈ (calculateChanges currentFiles env (some last)).modified ∧
         p ∈ (calculateChanges currentFiles env (some last)).deleted)) ∧
    (∀ p, List.lookup p (calculateFileHashes currentFiles env) ≠ List.lookup p last →
      p ∈ (calculateChanges currentFiles env (some last)).added ∨
      p ∈ (calculateChanges currentFiles env (some last)).modified ∨
      p ∈ (calculateChanges currentFiles env (some last)).deleted) := by
  have hadd : ∀ p, p ∈ (calculateChanges currentFiles env (some last)).added ↔
      p ∈ currentFiles ∧ List.lookup p last = none := by
    intro p
    rw [mem_added_iff]
    constructor
    · rintro ⟨_, hp, hn⟩; exact ⟨hp, hn⟩
    · rintro ⟨hp, hn⟩; exact ⟨hr p hp, hp, hn⟩
  have hdel : ∀ p, p ∈ (calculateChanges currentFiles env (some last)).deleted ↔
      p ∈ keysOf last ∧ p ∉ currentFiles := by
    intro p
    rw [mem_deleted_iff]
    constructor
    · rintro ⟨hk, hn⟩
      refine ⟨hk, fun hp => hn ⟨hp, hr p hp⟩⟩
    · rintro ⟨hk, hp⟩
      exact ⟨hk, fun hc => hp hc.1⟩
  refine ⟨rfl, hadd, fun p => mem_modified_iff _ _ _ p, hdel, ?_, ?_⟩
  · intro p
    refine ⟨?_, ?_, ?_⟩
    · rintro ⟨ha, hm⟩
      rcases (hadd p).mp ha with ⟨_, hn⟩
      rcases (mem_modified_iff _ _ _ p).mp hm with ⟨_, _, _, _, hs, _⟩
      rw [hn] at hs; cases hs
    · rintro ⟨ha, hd⟩
      rcases (hadd p).mp ha with ⟨hp, _⟩
      rcases (hdel p).mp hd with ⟨_, hnp⟩
      exact hnp hp
    · rintro ⟨hm, hd⟩
      rcases (mem_modified_iff _ _ _ p).mp hm with ⟨hp, _⟩
      rcases (hdel p).mp hd with ⟨_, hnp⟩
      exact hnp hp
  · intro p hne
    rw [lookup_calculateFileHashes] at hne
    by_cases hp : p ∈ currentFiles
    · rcases Option.isSome_iff_exists.mp (hr p hp) with ⟨h, he⟩
      rw [if_pos hp, he] at hne
      cases hl : List.lookup p last with
      | none => exact Or.inl ((hadd p).mpr ⟨hp, hl⟩)
      | some h0 =>
        refine Or.inr (Or.inl ((mem_modified_iff _ _ _ p).mpr ⟨hp, h, h0, he, hl, ?_⟩))
        rw [hl] at hne
        intro heq; exact hne (by rw [heq])
    · rw [if_neg hp] at hne
      cases hl : List.lookup p last with
      | none => rw [hl] at hne; exact absurd rfl hne
      | some h0 =>
        refine Or.inr (Or.inr ((hdel p).mpr ⟨?_, hp⟩))
        rw [← lookup_isSome_iff, hl]
        rfl

/-- Readable file system used by the Change Detector witnesses. -/
def c5Env : Path → Option Nat := fun f =>
  if f = "a" then some 1 else if f = "b" then some 2 else
  if f = "c" then some 3 else none

/-- Reference fingerprint map used by the Change Detector witnesses. -/
def c5Last : FileMap := [("a", 1), ("b", 5), ("d", 4)]

/-- Witness for calculateChanges_spec: a new file is added, a file with
a changed digest is modified and a vanished file is deleted. -/
theorem calculateChanges_spec_witness :
    "c" ∈ (calculateChanges ["a", "b", "c"] c5Env (some c5Last)).added ∧
    "b" ∈ (calculateChanges ["a", "b", "c"] c5Env (some c5Last)).modified ∧
    "d" ∈ (calculateChanges ["a", "b", "c"] c5Env (some c5Last)).deleted := by
  have h := calculateChanges_spec ["a", "b", "c"] c5Env c5Last (by decide)
  refine ⟨(h.2.1 "c").mpr ⟨by decide, by decide⟩,
    (h.2.2.1 "b").mpr ⟨by decide, 2, 5, by decide, by decide, by decide⟩,
    (h.2.2.2.1 "d").mpr ⟨by decide, by decide⟩⟩

/-- C10: a tracked file that is listed but cannot be read fingerprints
to none and is left out of the fingerprint map without failing the
operation (the embedding is total); consequently the Change Detector
never reports it added or modified, and reports it deleted whenever the
reference fingerprint map mentions it. -/
theorem unreadable_file_spec (currentFiles : List Path)
    (env : Path → Option Nat) (last : FileMap) (f : Path)
    (hf : f ∈ currentFiles) (hu : env f = none) :
    calculateFileHash env f = none ∧
    List.lookup f (calculateFileHashes currentFiles env) = none ∧
    f ∉ (calculateChanges currentFiles env (some last)).added ∧
    f ∉ (calculateChanges currentFiles env (some last)).modified ∧
    (f ∈ keysOf last → f ∈ (calculateChanges currentFiles env (some last)).deleted) := by
  refine ⟨hu, ?_, ?_, ?_, ?_⟩
  · rw [lookup_calculateFileHashes]
    simp [hf, hu]
  · intro hmem
    rcases (mem_added_iff _ _ _ _).mp hmem with ⟨hs, _, _⟩
    rw [hu] at hs
    cases hs
  · intro hmem
    rcases (mem_modified_iff _ _ _ _).mp hmem with ⟨_, h, h0, he, _, _⟩
    rw [hu] at he
    cases he
  · intro hk
    refine (mem_deleted_iff _ _ _ _).mpr ⟨hk, ?_⟩
    rintro ⟨_, hs⟩
    rw [hu] at hs
    cases hs

/-- File system for the unreadable-file witness: file u exists in the
current list but cannot be read. -/
def c10Env : Path → Option Nat := fun f => if f = "a" then some 1 else none

/-- Reference fingerprint map for the unreadable-file witness. -/
def c10Last : FileMap := [("u", 7), ("a", 1)]

/-- Witness for unreadable_file_spec at a concrete input. -/
theorem unreadable_file_spec_witness :
    List.lookup "u" (calculateFileHashes ["a", "u"] c10Env) = none ∧
    "u" ∉ (calculateChanges ["a", "u"] c10Env (some c10Last)).added ∧
    "u" ∈ (calculateChanges ["a", "u"] c10Env (some c10Last)).deleted := by
  have h := unreadable_file_spec ["a", "u"] c10Env c10Last "u" (by decide) (by decide)
  exact ⟨h.2.1, h.2.2.1, h.2.2.2.2 (by decide)⟩

/-! ## 3. Data model: manifests and the checkpoint store -/

/-- Derived statistics stored in an INCREMENTAL manifest.  The
floating-point compressionRatio of the source is not modelled. -/
structure Statistics where
  filesChanged : Nat
  bytesAdded : Nat
  bytesModified : Nat
deriving DecidableEq

/-- The manifest document of one checkpoint (source lines 409-430).
The type field mirrors the JavaScript string field: none stands for a
legacy manifest with no type.  Timestamps are modelled as naturals
ordered like the ISO timestamp strings of the source. -/
structure Manifest where
  name : String
  timestamp : Nat
  description : String
  type : Option String
  files : List Path
  fileCount : Nat
  totalSize : Nat
  fileHashes : FileMap
  baseCheckpoint : Option String
  changes : Option Changes
  statistics : Option Statistics
deriving DecidableEq

/-- One subdirectory of the snapshots store.  manifest is none when
manifest.json is missing or does not parse; archive mirrors
files.tar.gz; addedFiles and modifiedFiles mirror the added/ and
modified/ payload trees; deletedJson mirrors deleted.json. -/
structure StoreEntry where
  dirName : String
  isDir : Bool
  manifest : Option Manifest
  archive : Option FileMap
  addedFiles : FileMap
  modifiedFiles : FileMap
  deletedJson : List Path
deriving DecidableEq

/-! ## 4.5 Checkpoint Registry (getCheckpoints) -/

/-- Comparator of getCheckpoints: manifest a sorts before manifest b
when a is at least as new. -/
def newestFirst (a b : Manifest) : Prop := b.timestamp ≤ a.timestamp

instance : DecidableRel newestFirst := fun a b => Nat.decLe b.timestamp a.timestamp

instance : IsTotal Manifest newestFirst := ⟨fun a b => Nat.le_total b.timestamp a.timestamp⟩

instance : IsTrans Manifest newestFirst := ⟨fun _ _ _ hab hbc => Nat.le_trans hbc hab⟩

/-- getCheckpoints (source lines 742-765): read every snapshots
subdirectory, keep exactly those whose manifest parses, and sort the
manifests newest first by creation timestamp. -/
def getCheckpoints (entries : List StoreEntry) : List Manifest :=
  List.insertionSort newestFirst
    ((entries.filter (fun e => e.isDir)).filterMap (fun e => e.manifest))

/-- C8: the Registry listing returns exactly the checkpoints of
directory entries whose manifest parses, sorted newest first by
creation timestamp; an entry with an unreadable or corrupt manifest is
silently skipped, and the listing is a total function of the store
directory, so it never fails. -/
theorem getCheckpoints_spec (entries : List StoreEntry) :
    List.Sorted newestFirst (getCheckpoints entries) ∧
    (getCheckpoints entries).Perm
      ((entries.filter (fun e => e.isDir)).filterMap (fun e => e.manifest)) ∧
    (∀ m, m ∈ getCheckpoints entries ↔
      ∃ e ∈ entries, e.isDir = true ∧ e.manifest = some m) := by
  refine ⟨List.sorted_insertionSort _ _, List.perm_insertionSort _ _, ?_⟩
  intro m
  rw [show getCheckpoints entries = List.insertionSort newestFirst
      ((entries.filter (fun e => e.isDir)).filterMap (fun e => e.manifest)) from rfl,
    (List.perm_insertionSort newestFirst _).mem_iff]
  constructor
  · intro hm
    rcases List.mem_filterMap.mp hm with ⟨e, he, hman⟩
    rcases List.mem_filter.mp he with ⟨hee, hdir⟩
    exact ⟨e, hee, hdir, hman⟩
  · rintro ⟨e, hee, hdir, hman⟩
    exact List.mem_filterMap.mpr ⟨e, List.mem_filter.mpr ⟨hee, hdir⟩, hman⟩

/-! ## 4.3 Checkpoint Type Selector (shouldCreateFullCheckpoint) -/

/-- The policy knobs of config.json consumed by the engine (source
lines 24-56). -/
structure Config where
  maxCheckpoints : Nat
  incrementalEnabled : Bool
  fullSnapshotInterval : Nat
  maxChainLength : Nat
deriving DecidableEq

/-- The default configuration of loadConfig (source lines 25-43). -/
def defaultConfig : Config :=
  { maxCheckpoints := 10, incrementalEnabled := true,
    fullSnapshotInterval := 5, maxChainLength := 20 }

/-- shouldCreateFullCheckpoint (source lines 251-276).  The JavaScript
float comparison changed > fileCount * 0.5 over naturals agrees with
the integer comparison fileCount < 2 * changed used here. -/
def shouldCreateFullCheckpoint (config : Config) (checkpoints : List Manifest)
    (changes : Changes) : Bool :=
  if !config.incrementalEnabled then true
  else
    let incrementalCheckpoints := checkpoints.filter (fun cp =>
      cp.type == some "INCREMENTAL" || cp.type == some "INC")
    decide (checkpoints.length = 0) ||
    decide (config.fullSnapshotInterval ≤ incrementalCheckpoints.length) ||
    decide (config.maxChainLength ≤ incrementalCheckpoints.length) ||
    decide (((checkpoints.head?.map (fun cp => cp.fileCount)).getD 0) <
      2 * (changes.added.length + changes.modified.length + changes.deleted.length))

/-- Modelled from the words of claim C3 for comparison: FULL exactly
when, first match in order, (a) no prior checkpoint exists, (b) the
count of INCREMENTAL checkpoints since the last FULL checkpoint reaches
the full snapshot interval, (c) that count reaches the max chain
length, or (d) the changed-file count exceeds half the newest
checkpoint fileCount. -/
def specTypeSelectorFull (config : Config) (checkpoints : List Manifest)
    (changes : Changes) : Bool :=
  let sinceLastFull := (checkpoints.takeWhile (fun cp =>
      !(cp.type == some "FULL"))).filter (fun cp =>
      cp.type == some "INCREMENTAL" || cp.type == some "INC")
  decide (checkpoints.length = 0) ||
  decide (config.fullSnapshotInterval ≤ sinceLastFull.length) ||
  decide (config.maxChainLength ≤ sinceLastFull.length) ||
  decide (((checkpoints.head?.map (fun cp => cp.fileCount)).getD 0) <
    2 * (changes.added.length + changes.modified.length + changes.deleted.length))

/-- A minimal manifest for concrete registry scenarios. -/
def mkMan (n : String) (ts : Nat) (ty : Option String) (fc : Nat) : Manifest :=
  { name := n, timestamp := ts, description := "", type := ty, files := [],
    fileCount := fc, totalSize := 0, fileHashes := [], baseCheckpoint := none,
    changes := none, statistics := none }

/-- Newest-first registry listing with a FULL checkpoint on top of five
INCREMENTAL ones, for the C3 counterexample. -/
def c3Checkpoints : List Manifest :=
  [mkMan "f6" 6 (some "FULL") 100, mkMan "i5" 5 (some "INCREMENTAL") 100,
   mkMan "i4" 4 (some "INCREMENTAL") 100, mkMan "i3" 3 (some "INCREMENTAL") 100,
   mkMan "i2" 2 (some "INCREMENTAL") 100, mkMan "i1" 1 (some "INCREMENTAL") 100]

/-- A one-file change set for the C3 counterexample. -/
def c3Changes : Changes := { added := ["x"], modified := [], deleted := [] }

/-- C3 counterexample: with the default configuration and a registry
whose newest checkpoint is FULL followed by five INCREMENTAL ones, the
code chooses FULL because it counts every INCREMENTAL checkpoint in the
whole listing, while the claimed count-since-last-FULL rule chooses
INCREMENTAL (the count since the last FULL is zero and only one file
changed out of one hundred). -/
theorem shouldCreateFullCheckpoint_counterexample :
    shouldCreateFullCheckpoint defaultConfig c3Checkpoints c3Changes = true ∧
    specTypeSelectorFull defaultConfig c3Checkpoints c3Changes = false := by
  exact ⟨rfl, rfl⟩

/-- The amended selector: when incremental storage is disabled every
checkpoint is FULL; otherwise FULL exactly when no prior checkpoint
exists, or the count of all INCREMENTAL checkpoints in the registry
listing reaches the full snapshot interval or the max chain length, or
the changed-file count exceeds half the newest checkpoint fileCount. -/
def amendedTypeSelectorFull (config : Config) (checkpoints : List Manifest)
    (changes : Changes) : Bool :=
  if !config.incrementalEnabled then true
  else
    let incCount := (checkpoints.filter (fun cp =>
      cp.type == some "INCREMENTAL" || cp.type == some "INC")).length
    checkpoints.isEmpty ||
    decide (config.fullSnapshotInterval ≤ incCount) ||
    decide (config.maxChainLength ≤ incCount) ||
    decide (((checkpoints.head?.map (fun cp => cp.fileCount)).getD 0) <
      2 * (changes.added.length + changes.modified.length + changes.deleted.length))

/-- C3 amended: the Checkpoint Type Selector equals the amended rule
(counting all INCREMENTAL checkpoints in the listing); in particular,
once the count of INCREMENTAL checkpoints reaches the full snapshot
interval the next checkpoint is forced to FULL. -/
theorem shouldCreateFullCheckpoint_amended (config : Config)
    (checkpoints : List Manifest) (changes : Changes) :
    shouldCreateFullCheckpoint config checkpoints changes =
      amendedTypeSelectorFull config checkpoints changes ∧
    (config.fullSnapshotInterval ≤ (checkpoints.filter (fun cp =>
        cp.type == some "INCREMENTAL" || cp.type == some "INC")).length →
      shouldCreateFullCheckpoint config checkpoints changes = true) := by
  constructor
  · unfold shouldCreateFullCheckpoint amendedTypeSelectorFull
    cases config.incrementalEnabled with
    | false => rfl
    | true => cases checkpoints with
      | nil => rfl
      | cons c rest => rfl
  · intro hcount
    unfold shouldCreateFullCheckpoint
    cases hie : config.incrementalEnabled with
    | false => rfl
    | true =>
      simp only [hie, Bool.not_true, Bool.false_eq_true, if_false]
      rw [decide_eq_true hcount]
      simp

/-- Witness for shouldCreateFullCheckpoint_amended: five INCREMENTAL
checkpoints in the listing force the next checkpoint to FULL. -/
theorem shouldCreateFullCheckpoint_amended_witness :
    shouldCreateFullCheckpoint defaultConfig (c3Checkpoints.drop 1) c3Changes = true := by
  exact (shouldCreateFullCheckpoint_amended defaultConfig (c3Checkpoints.drop 1)
    c3Changes).2 (by decide)

/-! ## 4.6 Chain Resolver (buildCheckpointChain) -/

/-- Outcome of the chain walk.  missingBase models the thrown
Missing-base-checkpoint error, noFullBase the thrown
chain-does-not-start-with-a-full-checkpoint error, and outOfFuel
stands for a walk that never exits (the JavaScript while loop would
spin forever on a cyclic registry). -/
inductive ChainResult where
  | ok (chain : List Manifest)
  | missingBase (name : String)
  | noFullBase
  | outOfFuel
deriving DecidableEq

/-- JavaScript falsiness of the type field: undefined or empty. -/
def typeFalsy : Option String → Bool
  | some t => t == ""
  | none => true

/-- The name-to-manifest map of buildCheckpointChain: a JavaScript Map
built by insertion keeps the last entry for a repeated name. -/
def chainLookup (cps : List Manifest) (n : String) : Option Manifest :=
  cps.reverse.find? (fun cp => cp.name == n)

/-- The while loop of buildCheckpointChain (source lines 658-683) with
an explicit fuel in place of the unbounded loop; chain is the
accumulator whose head is current.  The loop runs while the current
record is typed INCREMENTAL and holds a truthy base reference; on exit
the guard (type not FULL and type falsy) raises noFullBase. -/
def chainWalk : Nat → List Manifest → Manifest → List Manifest → ChainResult
  | 0, _, _, _ => .outOfFuel
  | fuel + 1, cps, current, chain =>
    match current.baseCheckpoint with
    | some b =>
      if current.type == some "INCREMENTAL" && !(b == "") then
        match chainLookup cps b with
        | none => .missingBase b
        | some base => chainWalk fuel cps base (base :: chain)
      else if typeFalsy current.type then .noFullBase else .ok chain
    | none => if typeFalsy current.type then .noFullBase else .ok chain

/-- buildCheckpointChain (source lines 658-683): walk backwards from
the target through base references. -/
def buildCheckpointChain (fuel : Nat) (cps : List Manifest)
    (target : Manifest) : ChainResult :=
  chainWalk fuel cps target [target]

/-- An INCREMENTAL manifest carrying no base reference, for the C4
counterexample. -/
def c4Orphan : Manifest := mkMan "orph" 1 (some "INCREMENTAL") 0

/-- C4 counterexample: on a registry holding a single INCREMENTAL
checkpoint with no base reference the Chain Resolver neither fails with
a chain-integrity error nor returns a chain headed by a FULL
checkpoint: the walk exits at once, and the final guard
(type not FULL and type falsy) does not fire because the INCREMENTAL
type string is truthy, so the resolver returns the one-element chain
whose first element is INCREMENTAL. -/
theorem buildCheckpointChain_counterexample :
    buildCheckpointChain 2 [c4Orphan] c4Orphan = .ok [c4Orphan] ∧
    c4Orphan.type ≠ some "FULL" := by
  exact ⟨rfl, by decide⟩

/-- Decidable well-formedness of one registry record against a rank
function: the record is typed FULL or INCREMENTAL, and an INCREMENTAL
record carries a nonempty base reference every owner of which ranks
strictly below the record, so base walks cannot cycle. -/
def wfCheckB (cps : List Manifest) (rank : String → Nat) (cp : Manifest) : Bool :=
  (cp.type == some "FULL" || cp.type == some "INCREMENTAL") &&
  (!(cp.type == some "INCREMENTAL") ||
    (match cp.baseCheckpoint with
     | some b => !(b == "") &&
         cps.all (fun c => !(c.name == b) || decide (rank c.name < rank cp.name))
     | none => false))

/-- Decidable well-formedness of a whole registry. -/
def wfRegistryB (cps : List Manifest) (rank : String → Nat) : Bool :=
  cps.all (wfCheckB cps rank)

/-- A successful chainLookup returns a registry record with the looked
up name. -/
theorem chainLookup_eq_some (cps : List Manifest) (n : String) (c : Manifest)
    (h : chainLookup cps n = some c) : c.name = n ∧ c ∈ cps := by
  have h1 := List.find?_some h
  have h2 := List.mem_of_find?_eq_some h
  exact ⟨beq_iff_eq.mp h1, List.mem_reverse.mp h2⟩

/-- Invariant-carrying specification of the chain walk over a
well-formed registry: the walk either reports a base reference that is
genuinely absent from the registry map, or returns a chain headed by a
FULL checkpoint, ending at the target, and linked by base references. -/
theorem chainWalk_spec (fuel : Nat) :
    ∀ (cps : List Manifest) (rank : String → Nat) (current target : Manifest)
      (chain : List Manifest),
    wfRegistryB cps rank = true →
    current ∈ cps →
    rank current.name < fuel →
    chain.head? = some current →
    chain.getLast? = some target →
    List.Chain' (fun x y => y.baseCheckpoint = some x.name) chain →
    (∃ b, chainWalk fuel cps current chain = .missingBase b ∧
      chainLookup cps b = none) ∨
    (∃ chain2, chainWalk fuel cps current chain = .ok chain2 ∧
      (∃ c0, chain2.head? = some c0 ∧ c0.type = some "FULL") ∧
      chain2.getLast? = some target ∧
      List.Chain' (fun x y => y.baseCheckpoint = some x.name) chain2) := by
  induction fuel with
  | zero =>
    intro cps rank current target chain hwf hcur hfuel hhead hlast hchain
    exact absurd hfuel (Nat.not_lt_zero _)
  | succ f ih =>
    intro cps rank current target chain hwf hcur hfuel hhead hlast hchain
    cases chain with
    | nil => cases hhead
    | cons c cs =>
    have hc : c = current := Option.some.inj hhead
    subst hc
    have hw := List.all_eq_true.mp hwf c hcur
    unfold wfCheckB at hw
    rw [Bool.and_eq_true] at hw
    obtain ⟨hty, hbase⟩ := hw
    rw [Bool.or_eq_true] at hty
    rcases hty with hfull | hinc
    · -- current is FULL: the loop exits and returns the chain
      have htyeq : c.type = some "FULL" := beq_iff_eq.mp hfull
      have hnotinc : (c.type == some "INCREMENTAL") = false := by
        rw [htyeq]; rfl
      have hnotfalsy : typeFalsy c.type = false := by
        rw [htyeq]; rfl
      refine Or.inr ⟨c :: cs, ?_, ⟨c, rfl, htyeq⟩, hlast, hchain⟩
      cases hb : c.baseCheckpoint with
      | none => simp [chainWalk, hb, hnotfalsy]
      | some b => simp [chainWalk, hb, hnotinc, hnotfalsy]
    · -- current is INCREMENTAL: well-formedness yields a truthy base
      have htyeq : c.type = some "INCREMENTAL" := beq_iff_eq.mp hinc
      have hisinc : (c.type == some "INCREMENTAL") = true := by
        rw [htyeq]; rfl
      rw [hisinc, Bool.not_true, Bool.false_or] at hbase
      cases hb : c.baseCheckpoint with
      | none => rw [hb] at hbase; cases hbase
      | some b =>
        rw [hb] at hbase
        rw [Bool.and_eq_true] at hbase
        obtain ⟨hbne, hall⟩ := hbase
        cases hlk : chainLookup cps b with
        | none =>
          refine Or.inl ⟨b, ?_, hlk⟩
          simp [chainWalk, hb, hisinc, hbne, hlk]
        | some base =>
          obtain ⟨hbname, hbmem⟩ := chainLookup_eq_some cps b base hlk
          have hrank : rank base.name < rank c.name := by
            have := List.all_eq_true.mp hall base hbmem
            rw [hbname] at this
            have hbb : (b == b) = true := beq_iff_eq.mpr rfl
            rw [hbb, Bool.not_true, Bool.false_or] at this
            rw [hbname]
            exact of_decide_eq_true this
          have hstep : chainWalk (f + 1) cps c (c :: cs) =
              chainWalk f cps base (base :: c :: cs) := by
            simp [chainWalk, hb, hisinc, hbne, hlk]
          rw [hstep]
          refine ih cps rank base target (base :: c :: cs) hwf hbmem
            (Nat.lt_of_lt_of_le hrank (Nat.le_of_lt_succ hfuel)) rfl ?_ ?_
          · rw [List.getLast?_cons_cons]
            exact hlast
          · refine List.chain'_cons'.mpr ⟨?_, hchain⟩
            intro y hy
            have : y = c := by
              have hyc : c = y := by simpa using hy
              exact hyc.symm
            subst this
            rw [hb, hbname]

/-- C4 amended: over a registry in which every checkpoint is typed FULL
or INCREMENTAL and every INCREMENTAL checkpoint carries a nonempty base
reference pointing strictly down a rank function (so base walks cannot
cycle), the Chain Resolver either fails with the missing-base
chain-integrity error, naming a base reference absent from the registry
map, or returns a chain whose first element is a FULL checkpoint, whose
last element is the target, and in which every later element's base
reference names its immediate predecessor; in particular deleting the
FULL base of an INCREMENTAL checkpoint from the registry makes
resolving that checkpoint fail with the chain-integrity error. -/
theorem buildCheckpointChain_amended (cps : List Manifest)
    (rank : String → Nat) (target : Manifest) (fuel : Nat)
    (hwf : wfRegistryB cps rank = true) (ht : target ∈ cps)
    (hfuel : rank target.name < fuel) :
    (∃ b, buildCheckpointChain fuel cps target = .missingBase b ∧
      chainLookup cps b = none) ∨
    (∃ chain2, buildCheckpointChain fuel cps target = .ok chain2 ∧
      (∃ c0, chain2.head? = some c0 ∧ c0.type = some "FULL") ∧
      chain2.getLast? = some target ∧
      List.Chain' (fun x y => y.baseCheckpoint = some x.name) chain2) :=
  chainWalk_spec fuel cps rank target target [target] hwf ht hfuel rfl rfl
    (List.chain'_singleton _)

/-- An INCREMENTAL manifest whose FULL base was deleted from the
registry, for the C4 witness (the Scenario C shape of the spec). -/
def c4Inc : Manifest :=
  { mkMan "B" 2 (some "INCREMENTAL") 1 with baseCheckpoint := some "A" }

/-- Rank function for the C4 witness registry. -/
def c4Rank : String → Nat := fun n => if n = "B" then 1 else 0

/-- Witness for buildCheckpointChain_amended: after the FULL base A of
the INCREMENTAL checkpoint B is deleted, resolving B yields the
missing-base chain-integrity failure. -/
theorem buildCheckpointChain_amended_witness :
    (∃ b, buildCheckpointChain 2 [c4Inc] c4Inc = .missingBase b ∧
      chainLookup [c4Inc] b = none) ∨
    (∃ chain2, buildCheckpointChain 2 [c4Inc] c4Inc = .ok chain2 ∧
      (∃ c0, chain2.head? = some c0 ∧ c0.type = some "FULL") ∧
      chain2.getLast? = some c4Inc ∧
      List.Chain' (fun x y => y.baseCheckpoint = some x.name) chain2) := by
  exact buildCheckpointChain_amended [c4Inc] c4Rank c4Inc 2 (by decide)
    (by decide) (by decide)

/-! ## 4.4 Snapshot Writer payloads and 4.7 Restore Engine -/

/-- A checkpoint directory as the Snapshot Writer lays it out: the
manifest plus either the full archive (files.tar.gz) or the delta
payload (added/ and modified/ file bytes plus deleted.json). -/
structure Snapshot where
  manifest : Manifest
  archive : Option FileMap
  addedFiles : FileMap
  modifiedFiles : FileMap
  deletedJson : List Path
deriving DecidableEq

/-- The file bytes the Snapshot Writer copies out of the project for
the given paths (the tar or delta payload); unreadable or vanished
files are skipped, like the copy loops of the source.  Because digests
are modelled as the content itself this coincides with the fingerprint
map of those paths. -/
def capturePaths (files : List Path) (proj : FileMap) : FileMap :=
  calculateFileHashes files (fun f => List.lookup f proj)

/-- Looking up a captured payload reads the project when the path was
listed. -/
theorem lookup_capturePaths (files : List Path) (proj : FileMap) (p : Path) :
    List.lookup p (capturePaths files proj) =
      if p ∈ files then List.lookup p proj else none :=
  lookup_calculateFileHashes files (fun f => List.lookup f proj) p

/-- Capturing a whole project state is lookup-equal to the state. -/
theorem lookup_capture_self (proj : FileMap) (p : Path) :
    List.lookup p (capturePaths (proj.map Prod.fst) proj) = List.lookup p proj := by
  rw [lookup_capturePaths]
  by_cases hp : p ∈ proj.map Prod.fst
  · rw [if_pos hp]
  · rw [if_neg hp, Eq.comm]
    exact (lookup_eq_none_iff p proj).mpr hp

/-- The snapshot directory written for a FULL checkpoint of project
state proj (create, source lines 409-418 and 437-447): a manifest with
the complete fingerprint map, plus the full archive. -/
def snapFull (n : String) (ts : Nat) (desc : String) (proj : FileMap) : Snapshot :=
  { manifest :=
    { name := n, timestamp := ts, description := desc, type := some "FULL",
      files := proj.map Prod.fst, fileCount := (proj.map Prod.fst).length,
      totalSize := ((proj.map Prod.fst).filterMap (fun f => List.lookup f proj)).sum,
      fileHashes := capturePaths (proj.map Prod.fst) proj, baseCheckpoint := none,
      changes := none, statistics := none },
    archive := some (capturePaths (proj.map Prod.fst) proj),
    addedFiles := [], modifiedFiles := [], deletedJson := [] }

/-- The snapshot directory written for an INCREMENTAL checkpoint of
project state proj against the fingerprint map lastHashes of the
previous checkpoint manifest (create plus createIncrementalCheckpoint,
source lines 409-430, 448-451 and 479-547): the manifest records the
complete current fingerprint map, the base reference and the change
record; the payload holds copies of the added and modified file bytes
and the deleted list. -/
def snapIncr (n : String) (ts : Nat) (desc : String) (baseName : String)
    (proj : FileMap) (lastHashes : FileMap) : Snapshot :=
  let changes := calculateChanges (proj.map Prod.fst)
    (fun f => List.lookup f proj) (some lastHashes)
  { manifest :=
    { name := n, timestamp := ts, description := desc, type := some "INCREMENTAL",
      files := proj.map Prod.fst, fileCount := (proj.map Prod.fst).length,
      totalSize := ((proj.map Prod.fst).filterMap (fun f => List.lookup f proj)).sum,
      fileHashes := capturePaths (proj.map Prod.fst) proj,
      baseCheckpoint := some baseName,
      changes := some changes,
      statistics := some
        { filesChanged := changes.added.length + changes.modified.length +
            changes.deleted.length,
          bytesAdded := (changes.added.filterMap (fun f => List.lookup f proj)).sum,
          bytesModified :=
            (changes.modified.filterMap (fun f => List.lookup f proj)).sum } },
    archive := none,
    addedFiles := capturePaths changes.added proj,
    modifiedFiles := capturePaths changes.modified proj,
    deletedJson := changes.deleted }

/-- restoreFullCheckpoint (source lines 613-637): delete every current
file absent from the checkpoint file list, then extract the archive
over the project directory.  A missing archive models a tar extraction
that throws after the deletions already happened. -/
def restoreFullCheckpoint (files : List Path) (archive : Option FileMap)
    (proj : FileMap) : Option String × FileMap :=
  let kept := proj.filter (fun pc => files.contains pc.1)
  match archive with
  | some ar => (none, ar ++ kept)
  | none => (some "tar extract failed", kept)

/-- applyIncrementalChanges (source lines 685-740): copy the added
payload files into place, then the modified ones, then unlink the
deleted paths; a payload file that cannot be copied is skipped, and a
manifest without a change record applies nothing. -/
def applyIncrementalChanges (changes : Option Changes)
    (addedFiles modifiedFiles : FileMap) (proj : FileMap) : FileMap :=
  match changes with
  | none => proj
  | some ch =>
    let s1 := ch.added.foldl (fun acc f =>
      match List.lookup f addedFiles with
      | some c => (f, c) :: acc
      | none => acc) proj
    let s2 := ch.modified.foldl (fun acc f =>
      match List.lookup f modifiedFiles with
      | some c => (f, c) :: acc
      | none => acc) s1
    ch.deleted.foldl (fun acc f => acc.filter (fun pc => !(pc.1 == f))) s2

/-- The chain application of restoreIncrementalCheckpoint (source lines
639-656): restore the base FULL checkpoint, then apply every later
INCREMENTAL link of the resolved chain in order.  A FULL target is the
one-element chain. -/
def restoreChain (chain : List Snapshot) (proj : FileMap) : FileMap :=
  match chain with
  | [] => proj
  | base :: incs =>
    incs.foldl (fun acc snap =>
      applyIncrementalChanges snap.manifest.changes snap.addedFiles
        snap.modifiedFiles acc)
      (restoreFullCheckpoint base.manifest.files base.archive proj).2

/-- The chains the Snapshot Writer actually produces: a FULL snapshot
of some project state, extended by INCREMENTAL snapshots each recording
the delta from the state of the previous link to its own state, with
the base reference naming the previous link. -/
inductive Created : List Snapshot → FileMap → Prop where
  | base (n : String) (ts : Nat) (desc : String) (s : FileMap) :
      Created [snapFull n ts desc s] s
  | step (chain : List Snapshot) (s : FileMap) (prev : Snapshot)
      (n : String) (ts : Nat) (desc : String) (s2 : FileMap)
      (hc : Created chain s) (hlast : chain.getLast? = some prev) :
      Created (chain ++
        [snapIncr n ts desc prev.manifest.name s2 prev.manifest.fileHashes]) s2

/-- The last link of a created chain records the complete fingerprint
map of the state the chain was created at. -/
theorem created_last_fileHashes (chain : List Snapshot) (s : FileMap)
    (hc : Created chain s) :
    ∃ last, chain.getLast? = some last ∧
      last.manifest.fileHashes = capturePaths (s.map Prod.fst) s := by
  induction hc with
  | base n ts desc s => exact ⟨snapFull n ts desc s, rfl, rfl⟩
  | step chain s prev n ts desc s2 hc hlast ih =>
    exact ⟨_, List.getLast?_concat _, rfl⟩

/-- List.contains agrees with membership over paths. -/
theorem contains_iff_mem (l : List Path) (a : Path) :
    l.contains a = true ↔ a ∈ l := by
  induction l with
  | nil => simp
  | cons x xs ih =>
    by_cases h : a = x
    · subst h
      have hbeq : (a == a) = true := beq_iff_eq.mpr rfl
      simp [List.contains, List.elem, hbeq]
    · have hbeq : (a == x) = false := beq_eq_false_iff_ne.mpr h
      simp only [List.contains, List.elem, hbeq, List.mem_cons]
      rw [show (List.elem a xs) = xs.contains a from rfl] at *
      rw [ih]
      constructor
      · exact Or.inr
      · rintro (hax | hm)
        · exact absurd hax h
        · exact hm

/-- Lookup through the copy loop of applyIncrementalChanges: a listed
path with a payload copy takes the payload value, everything else keeps
the underlying state. -/
theorem lookup_foldl_copy (payload : FileMap) (fs : List Path) (s : FileMap)
    (p : Path) :
    List.lookup p (fs.foldl (fun acc f =>
      match List.lookup f payload with
      | some c => (f, c) :: acc
      | none => acc) s) =
    if p ∈ fs ∧ (List.lookup p payload).isSome then List.lookup p payload
    else List.lookup p s := by
  induction fs generalizing s with
  | nil => simp
  | cons f rest ih =>
    simp only [List.foldl_cons]
    cases hl : List.lookup f payload with
    | none =>
      rw [ih]
      by_cases hp : p = f
      · subst hp
        rw [hl]
        simp
      · by_cases hX : (List.lookup p payload).isSome
        · simp [List.mem_cons, hp, hX]
        · simp [List.mem_cons, hp, hX]
    | some c =>
      rw [ih]
      by_cases hp : p = f
      · subst hp
        have hbeq : (p == p) = true := beq_iff_eq.mpr rfl
        by_cases hr : p ∈ rest
        · simp [hr, hl]
        · simp [hr, hl, List.lookup, hbeq]
      · have hbeq : (p == f) = false := beq_eq_false_iff_ne.mpr hp
        by_cases hX : (List.lookup p payload).isSome
        · simp [List.mem_cons, hp, hX, List.lookup, hbeq]
        · simp [List.mem_cons, hp, hX, List.lookup, hbeq]

/-- Lookup through the unlink loop of applyIncrementalChanges: a listed
path is gone, everything else keeps the underlying state. -/
theorem lookup_foldl_unlink (fs : List Path) (s : FileMap) (p : Path) :
    List.lookup p (fs.foldl (fun acc f =>
      acc.filter (fun pc => !(pc.1 == f))) s) =
    if p ∈ fs then none else List.lookup p s := by
  induction fs generalizing s with
  | nil => simp
  | cons f rest ih =>
    simp only [List.foldl_cons]
    rw [ih]
    by_cases hp : p = f
    · subst hp
      by_cases hr : p ∈ rest
      · simp [hr]
      · have hbeq : (p == p) = true := beq_iff_eq.mpr rfl
        rw [lookup_filter (fun q => !(q == p))]
        simp [hr, hbeq]
    · have hbeq : (p == f) = false := beq_eq_false_iff_ne.mpr hp
      rw [lookup_filter (fun q => !(q == f))]
      simp only [List.mem_cons, hbeq, Bool.not_false, if_true]
      by_cases hr : p ∈ rest
      · simp [hr]
      · simp [hr, hp]

/-- Lookup through applyIncrementalChanges: deletions win over the
modified payload, which wins over the added payload, which wins over
the underlying state. -/
theorem lookup_applyIncrementalChanges (ch : Changes)
    (addedFiles modifiedFiles : FileMap) (proj : FileMap) (p : Path) :
    List.lookup p (applyIncrementalChanges (some ch) addedFiles modifiedFiles proj) =
    if p ∈ ch.deleted then none
    else if p ∈ ch.modified ∧ (List.lookup p modifiedFiles).isSome then
      List.lookup p modifiedFiles
    else if p ∈ ch.added ∧ (List.lookup p addedFiles).isSome then
      List.lookup p addedFiles
    else List.lookup p proj := by
  simp only [applyIncrementalChanges]
  rw [lookup_foldl_unlink, lookup_foldl_copy, lookup_foldl_copy]

/-- Applying an INCREMENTAL snapshot created from state s to state s2,
on top of any project state lookup-equal to s, yields a state
lookup-equal to s2. -/
theorem lookup_applyIncr_snapIncr (n : String) (ts : Nat) (desc baseName : String)
    (s s2 σ : FileMap) (hσ : ∀ q, List.lookup q σ = List.lookup q s) (p : Path) :
    List.lookup p (applyIncrementalChanges
      (snapIncr n ts desc baseName s2
        (capturePaths (s.map Prod.fst) s)).manifest.changes
      (snapIncr n ts desc baseName s2
        (capturePaths (s.map Prod.fst) s)).addedFiles
      (snapIncr n ts desc baseName s2
        (capturePaths (s.map Prod.fst) s)).modifiedFiles
      σ) = List.lookup p s2 := by
  set ch := calculateChanges (s2.map Prod.fst) (fun f => List.lookup f s2)
    (some (capturePaths (s.map Prod.fst) s)) with hch
  have hchg : (snapIncr n ts desc baseName s2
      (capturePaths (s.map Prod.fst) s)).manifest.changes = some ch := rfl
  have haf : (snapIncr n ts desc baseName s2
      (capturePaths (s.map Prod.fst) s)).addedFiles =
      capturePaths ch.added s2 := rfl
  have hmf : (snapIncr n ts desc baseName s2
      (capturePaths (s.map Prod.fst) s)).modifiedFiles =
      capturePaths ch.modified s2 := rfl
  have hkeys2 : ∀ q, (List.lookup q s2).isSome ↔ q ∈ s2.map Prod.fst :=
    fun q => lookup_isSome_iff q s2
  have hadd : p ∈ ch.added ↔
      ((List.lookup p s2).isSome ∧ List.lookup p s = none) := by
    rw [hch, mem_added_iff]
    constructor
    · rintro ⟨h1, _, h3⟩
      rw [lookup_capture_self] at h3
      exact ⟨h1, h3⟩
    · rintro ⟨h1, h3⟩
      refine ⟨h1, (hkeys2 p).mp h1, ?_⟩
      rw [lookup_capture_self]
      exact h3
  have hmod : p ∈ ch.modified ↔
      ∃ h h0, List.lookup p s2 = some h ∧ List.lookup p s = some h0 ∧ h0 ≠ h := by
    rw [hch, mem_modified_iff]
    constructor
    · rintro ⟨_, h, h0, he, hl, hne⟩
      rw [lookup_capture_self] at hl
      exact ⟨h, h0, he, hl, hne⟩
    · rintro ⟨h, h0, he, hl, hne⟩
      refine ⟨(hkeys2 p).mp (by rw [he]; rfl), h, h0, he, ?_, hne⟩
      rw [lookup_capture_self]
      exact hl
  have hdel : p ∈ ch.deleted ↔
      ((List.lookup p s).isSome ∧ List.lookup p s2 = none) := by
    rw [hch, mem_deleted_iff]
    constructor
    · rintro ⟨hk, hn⟩
      have hks : (List.lookup p (capturePaths (s.map Prod.fst) s)).isSome :=
        (lookup_isSome_iff _ _).mpr hk
      rw [lookup_capture_self] at hks
      refine ⟨hks, ?_⟩
      cases hs2 : List.lookup p s2 with
      | none => rfl
      | some v =>
        exact absurd ⟨(hkeys2 p).mp (by rw [hs2]; rfl), by rw [hs2]; rfl⟩ hn
    · rintro ⟨hsm, hn⟩
      refine ⟨(lookup_isSome_iff _ _).mp ?_, ?_⟩
      · rw [lookup_capture_self]
        exact hsm
      · rintro ⟨_, hsome⟩
        rw [hn] at hsome
        cases hsome
  rw [hchg, haf, hmf, lookup_applyIncrementalChanges]
  cases hs2 : List.lookup p s2 with
  | none =>
    cases hs : List.lookup p s with
    | none =>
      have h1 : p ∉ ch.deleted := by rw [hdel]; simp [hs]
      have h2 : p ∉ ch.modified := by
        rw [hmod]
        rintro ⟨h, h0, he, _, _⟩
        rw [hs2] at he
        cases he
      have h3 : p ∉ ch.added := by rw [hadd]; simp [hs2]
      rw [if_neg h1, if_neg (fun hc => h2 hc.1), if_neg (fun hc => h3 hc.1),
        hσ p, hs]
    | some v =>
      have h1 : p ∈ ch.deleted := hdel.mpr ⟨by rw [hs]; rfl, hs2⟩
      rw [if_pos h1]
  | some v2 =>
    cases hs : List.lookup p s with
    | none =>
      have h1 : p ∉ ch.deleted := by rw [hdel]; simp [hs]
      have h3 : p ∈ ch.added := hadd.mpr ⟨by rw [hs2]; rfl, hs⟩
      have h2 : p ∉ ch.modified := by
        rw [hmod]
        rintro ⟨h, h0, _, hl, _⟩
        rw [hs] at hl
        cases hl
      have hap : List.lookup p (capturePaths ch.added s2) = some v2 := by
        rw [lookup_capturePaths, if_pos h3, hs2]
      rw [if_neg h1, if_neg (fun hc => h2 hc.1), if_pos ⟨h3, by rw [hap]; rfl⟩, hap]
    | some v =>
      by_cases hv : v = v2
      · subst hv
        have h1 : p ∉ ch.deleted := by rw [hdel]; simp [hs2]
        have h2 : p ∉ ch.modified := by
          rw [hmod]
          rintro ⟨h, h0, he, hl, hne⟩
          rw [hs2] at he
          rw [hs] at hl
          cases he
          cases hl
          exact hne rfl
        have h3 : p ∉ ch.added := by rw [hadd]; simp [hs]
        rw [if_neg h1, if_neg (fun hc => h2 hc.1), if_neg (fun hc => h3 hc.1),
          hσ p, hs]
      · have h1 : p ∉ ch.deleted := by rw [hdel]; simp [hs2]
        have h2 : p ∈ ch.modified := hmod.mpr ⟨v2, v, hs2, hs, hv⟩
        have hmp : List.lookup p (capturePaths ch.modified s2) = some v2 := by
          rw [lookup_capturePaths, if_pos h2, hs2]
        rw [if_neg h1, if_pos ⟨h2, by rw [hmp]; rfl⟩, hmp]

/-- C1: restoring a checkpoint along its created chain — the base FULL
archive applied after deleting every current path outside its file
list, then every INCREMENTAL link's added and modified payloads and
deleted lists applied in chain order — reproduces, from any starting
project state, exactly the tracked-file set and byte contents that
existed immediately after the target checkpoint was created. -/
theorem restoreChain_roundtrip (chain : List Snapshot) (s : FileMap)
    (hc : Created chain s) (t : FileMap) :
    ∀ p, List.lookup p (restoreChain chain t) = List.lookup p s := by
  induction hc generalizing t with
  | base n ts desc s0 =>
    intro p
    simp only [restoreChain, List.foldl_nil, snapFull, restoreFullCheckpoint]
    rw [lookup_append, lookup_capture_self]
    cases hs : List.lookup p s0 with
    | some v => rfl
    | none =>
      rw [Option.none_or, lookup_filter (fun q => (s0.map Prod.fst).contains q)]
      have hnm : ¬ p ∈ s0.map Prod.fst := by
        intro hm
        have hsm := (lookup_isSome_iff p s0).mpr hm
        rw [hs] at hsm
        cases hsm
      have hc2 : (s0.map Prod.fst).contains p = false := by
        cases hcc : (s0.map Prod.fst).contains p
        · rfl
        · exact absurd ((contains_iff_mem _ _).mp hcc) hnm
      rw [hc2]
      simp
  | step chain s prev n ts desc s2 hcc hlast ih =>
    intro p
    obtain ⟨last, hl2, hfh⟩ := created_last_fileHashes chain s hcc
    have hprev : prev = last := by
      rw [hlast] at hl2
      exact Option.some.inj hl2
    rcases chain with _ | ⟨b, rest⟩
    · rw [List.getLast?_nil] at hlast
      cases hlast
    · simp only [List.cons_append, restoreChain]
      rw [List.foldl_append]
      simp only [List.foldl_cons, List.foldl_nil]
      have hfh2 : prev.manifest.fileHashes = capturePaths (s.map Prod.fst) s := by
        rw [hprev]
        exact hfh
      rw [hfh2]
      exact lookup_applyIncr_snapIncr n ts desc prev.manifest.name s s2
        (restoreChain (b :: rest) t) (fun q => ih t q) p

/-- Project state at the FULL base checkpoint of the C1 witness. -/
def c1S0 : FileMap := [("a", 1), ("b", 2)]

/-- Project state at the INCREMENTAL target checkpoint of the C1
witness: b deleted, c added. -/
def c1S1 : FileMap := [("a", 1), ("c", 3)]

/-- The FULL base snapshot of the C1 witness chain. -/
def c1Prev : Snapshot := snapFull "cp0" 0 "" c1S0

/-- The created two-link chain of the C1 witness. -/
def c1Chain : List Snapshot :=
  [c1Prev] ++
    [snapIncr "cp1" 1 "" c1Prev.manifest.name c1S1 c1Prev.manifest.fileHashes]

/-- A drifted project state at restore time for the C1 witness. -/
def c1Start : FileMap := [("a", 9), ("b", 2), ("d", 4)]

/-- Witness for restoreChain_roundtrip: restoring the two-link chain
from a drifted project state reproduces the state at the target
checkpoint (file b gone, file c present, file a restored, stray file d
deleted). -/
theorem restoreChain_roundtrip_witness :
    List.lookup "b" (restoreChain c1Chain c1Start) = none ∧
    List.lookup "c" (restoreChain c1Chain c1Start) = some 3 ∧
    List.lookup "a" (restoreChain c1Chain c1Start) = some 1 ∧
    List.lookup "d" (restoreChain c1Chain c1Start) = none := by
  have hcr : Created c1Chain c1S1 :=
    Created.step [c1Prev] c1S0 c1Prev "cp1" 1 "" c1S1
      (Created.base "cp0" 0 "" c1S0) rfl
  have h := restoreChain_roundtrip c1Chain c1S1 hcr c1Start
  exact ⟨(h "b").trans (by decide), (h "c").trans (by decide),
    (h "a").trans (by decide), (h "d").trans (by decide)⟩

/-! ## 6. The checkpoint store world: create and restore -/

/-- The store and project state an engine operation runs on.  now is
the clock reading used for names, manifest timestamps and the
anti-spam cooldown, in seconds. -/
structure World where
  store : List StoreEntry
  project : FileMap
  now : Nat
  config : Config
deriving DecidableEq

/-- Observable actions of one engine operation, in execution order.
Store writes carry what they write; mutateProject marks the start of
project-directory mutation during restore. -/
inductive Ev where
  | mkdirSnapshot (n : String)
  | writeManifest (n : String) (m : Manifest)
  | writePayload (n : String) (archive : Option FileMap)
  | deleteSnapshot (n : String)
  | backupAttempt
  | mutateProject
deriving DecidableEq

/-- The result object of create.  The formatted size string of the
source result is presentation only and not modelled. -/
structure CreateResult where
  success : Bool
  error : Option String := none
  noChanges : Bool := false
  tooRecent : Bool := false
  name : Option String := none
  ctype : Option String := none
deriving DecidableEq

/-- The tracked-file lister (an external collaborator, spec section 6):
its deterministic sorted path list is modelled as the key list of the
project file map. -/
def projectFiles (proj : FileMap) : List Path := proj.map Prod.fst

/-- The timestamp slug of generateCheckpointName, modelled as the
decimal clock reading (the source formats an ISO timestamp; only
ordering and distinctness matter). -/
def tsSlug (now : Nat) : String := toString now

/-- The description slug of generateCheckpointName (source lines
285-291): lowercase, keep letters, digits and blanks, blanks to
underscores, at most 30 characters. -/
def cleanDesc (d : String) : String :=
  String.mk (((d.toLower.toList.filter (fun c =>
    c.isAlpha || c.isDigit || c == ' ')).map (fun c =>
      if c == ' ' then '_' else c)).take 30)

/-- generateCheckpointName (source lines 278-294). -/
def generateCheckpointName (customName description : Option String)
    (now : Nat) : String :=
  match customName with
  | some n => n ++ "_" ++ tsSlug now
  | none =>
    match description with
    | some d => cleanDesc d ++ "_" ++ tsSlug now
    | none => "checkpoint_" ++ tsSlug now

/-- The checkpoint subdirectory of a given name (directory names are
unique on a real file system; the model reads the first match). -/
def storeDir (store : List StoreEntry) (n : String) : Option StoreEntry :=
  store.find? (fun e => e.dirName == n)

/-- The store entry the Snapshot Writer leaves for a snapshot
directory. -/
def entryOfSnap (n : String) (snap : Snapshot) : StoreEntry :=
  { dirName := n, isDir := true, manifest := some snap.manifest,
    archive := snap.archive, addedFiles := snap.addedFiles,
    modifiedFiles := snap.modifiedFiles, deletedJson := snap.deletedJson }

/-- cleanupOldCheckpoints (source lines 767-782): delete the store
directories of every checkpoint beyond maxCheckpoints in the
newest-first listing. -/
def cleanupOldCheckpoints (config : Config) (store : List StoreEntry) :
    List StoreEntry × List Ev :=
  let checkpoints := getCheckpoints store
  if checkpoints.length > config.maxCheckpoints then
    let toDelete := checkpoints.drop config.maxCheckpoints
    (store.filter (fun e => !((toDelete.map (fun cp => cp.name)).contains e.dirName)),
     toDelete.map (fun cp => Ev.deleteSnapshot cp.name))
  else (store, [])

/-- create (source lines 356-477 of src/lib/checkpoint-manager.js):
refuse an empty file list, detect changes against the newest
checkpoint, refuse an unforced no-change call, pick the checkpoint
type, then write the snapshot directory — manifest first, payload
second, and for INCREMENTAL a second manifest write with final
statistics — and finally evict old checkpoints.  Writing a directory
whose name already exists overwrites it. -/
def create (w : World) (name description : Option String)
    (forceFullCheckpoint : Bool) : CreateResult × World × List Ev :=
  let files := projectFiles w.project
  if files.isEmpty then
    ({ success := false, error := some "No files found to checkpoint" }, w, [])
  else
    let checkpoints := getCheckpoints w.store
    let lastCheckpoint := checkpoints.head?
    let changes := calculateChanges files (fun f => List.lookup f w.project)
      (lastCheckpoint.map (fun cp => cp.fileHashes))
    let hasChanges := !changes.added.isEmpty || !changes.modified.isEmpty ||
      !changes.deleted.isEmpty
    if !forceFullCheckpoint && !hasChanges && lastCheckpoint.isSome then
      ({ success := false,
         error := some "No changes detected since last checkpoint",
         noChanges := true }, w, [])
    else
      let shouldFull := forceFullCheckpoint ||
        shouldCreateFullCheckpoint w.config checkpoints changes
      let checkpointName := generateCheckpointName name description w.now
      let desc := description.getD "Manual checkpoint"
      if shouldFull then
        let snap := snapFull checkpointName w.now desc w.project
        let store1 := w.store.filter (fun e => !(e.dirName == checkpointName)) ++
          [entryOfSnap checkpointName snap]
        let cleaned := cleanupOldCheckpoints w.config store1
        ({ success := true, name := some checkpointName, ctype := some "FULL" },
         { w with store := cleaned.1 },
         [Ev.mkdirSnapshot checkpointName,
          Ev.writeManifest checkpointName snap.manifest,
          Ev.writePayload checkpointName snap.archive] ++ cleaned.2)
      else
        let snap := snapIncr checkpointName w.now desc
          ((lastCheckpoint.map (fun cp => cp.name)).getD "") w.project
          ((lastCheckpoint.map (fun cp => cp.fileHashes)).getD [])
        let firstStats : Statistics :=
          { filesChanged := changes.added.length + changes.modified.length +
              changes.deleted.length,
            bytesAdded := 0, bytesModified := 0 }
        let firstManifest := { snap.manifest with statistics := some firstStats }
        let store1 := w.store.filter (fun e => !(e.dirName == checkpointName)) ++
          [entryOfSnap checkpointName snap]
        let cleaned := cleanupOldCheckpoints w.config store1
        ({ success := true, name := some checkpointName,
           ctype := some "INCREMENTAL" },
         { w with store := cleaned.1 },
         [Ev.mkdirSnapshot checkpointName,
          Ev.writeManifest checkpointName firstManifest,
          Ev.writePayload checkpointName none,
          Ev.writeManifest checkpointName snap.manifest] ++ cleaned.2)

/-- create of the published always-FULL variant of the same class
(src/unnamed/part_007 lines 396-517): an anti-spam cooldown skips
unforced calls without a custom name made within 30 seconds of the
newest checkpoint; the no-file and no-change outcomes are as in the
main variant; every written checkpoint is FULL, manifest first. -/
def createCp (w : World) (name description : Option String)
    (forceCreate : Bool) : CreateResult × World × List Ev :=
  let files := projectFiles w.project
  if files.isEmpty then
    ({ success := false, error := some "No files found to checkpoint" }, w, [])
  else
    let checkpoints := getCheckpoints w.store
    let lastCheckpoint := checkpoints.head?
    let tooRecent :=
      match lastCheckpoint with
      | some lc => !forceCreate && name.isNone && decide (w.now - lc.timestamp < 30)
      | none => false
    if tooRecent then
      ({ success := false, error := some "Checkpoint created too recently",
         tooRecent := true }, w, [])
    else
      let changes := calculateChanges files (fun f => List.lookup f w.project)
        (lastCheckpoint.map (fun cp => cp.fileHashes))
      let hasChanges := !changes.added.isEmpty || !changes.modified.isEmpty ||
        !changes.deleted.isEmpty
      if !forceCreate && !hasChanges && lastCheckpoint.isSome then
        ({ success := false,
           error := some "No changes detected since last checkpoint",
           noChanges := true }, w, [])
      else
        let checkpointName := generateCheckpointName name description w.now
        let desc := description.getD "Manual checkpoint"
        let snap := snapFull checkpointName w.now desc w.project
        let store1 := w.store.filter (fun e => !(e.dirName == checkpointName)) ++
          [entryOfSnap checkpointName snap]
        let cleaned := cleanupOldCheckpoints w.config store1
        ({ success := true, name := some checkpointName, ctype := some "FULL" },
         { w with store := cleaned.1 },
         [Ev.mkdirSnapshot checkpointName,
          Ev.writeManifest checkpointName snap.manifest,
          Ev.writePayload checkpointName snap.archive] ++ cleaned.2)

/-! ## 4.7 Restore Engine orchestration (restore) -/

/-- The result object of restore. -/
structure RestoreResult where
  success : Bool
  error : Option String := none
  dryRun : Bool := false
  chainLength : Nat := 0
  emergencyBackup : Option String := none
  restored : Option String := none
  rtype : Option String := none
deriving DecidableEq

/-- The needle starts the haystack, character by character. -/
def leadMatch : List Char → List Char → Bool
  | [], _ => true
  | _ :: _, [] => false
  | a :: as, b :: bs => a == b && leadMatch as bs

/-- The needle occurs somewhere in the haystack. -/
def subMatch (needle : List Char) : List Char → Bool
  | [] => needle.isEmpty
  | b :: bs => leadMatch needle (b :: bs) || subMatch needle bs

/-- JavaScript String.prototype.includes: the needle is a substring of
the haystack. -/
def strIncludes (hay needle : String) : Bool := subMatch needle.toList hay.toList

/-- The checkpoint selection of restore (source lines 552-554): the
first checkpoint, newest first, whose name equals the query or contains
it as a substring. -/
def findRestoreTarget (cps : List Manifest) (q : String) : Option Manifest :=
  cps.find? (fun cp => cp.name == q || strIncludes cp.name q)

/-- restoreFullCheckpoint run against a store: the checkpoint file list
comes from the manifest and the archive from the snapshot directory
named by the manifest. -/
def restoreFullW (store : List StoreEntry) (cp : Manifest) (proj : FileMap) :
    Option String × FileMap :=
  restoreFullCheckpoint cp.files
    ((storeDir store cp.name).bind (fun e => e.archive)) proj

/-- applyIncrementalChanges run against a store: payload files are read
from the snapshot directory named by the manifest; with the directory
missing every copy fails and is skipped while the deletions still
apply, exactly as the per-file catch blocks of the source behave. -/
def applyIncrW (store : List StoreEntry) (cp : Manifest) (proj : FileMap) : FileMap :=
  match storeDir store cp.name with
  | some e => applyIncrementalChanges cp.changes e.addedFiles e.modifiedFiles proj
  | none => applyIncrementalChanges cp.changes [] [] proj

/-- restoreIncrementalCheckpoint (source lines 639-656) run against a
store: resolve the chain from the freshly read registry, restore the
base FULL checkpoint, then apply each incremental link in order.  A
chain error aborts before any mutation; a failing base extraction
aborts after its deletions, as in restoreFullW. -/
def restoreIncrW (store : List StoreEntry) (target : Manifest) (proj : FileMap) :
    Option String × FileMap :=
  let checkpoints := getCheckpoints store
  match buildCheckpointChain (checkpoints.length + 1) checkpoints target with
  | .ok chain =>
    match chain with
    | [] => (some "No restoration chain found - missing base checkpoint", proj)
    | base :: incs =>
      match restoreFullW store base proj with
      | (some e, p1) => (some e, p1)
      | (none, p1) => (none, incs.foldl (fun acc cp => applyIncrW store cp acc) p1)
  | .missingBase b => (some ("Missing base checkpoint: " ++ b), proj)
  | .noFullBase =>
    (some "Checkpoint chain does not start with a full checkpoint", proj)
  | .outOfFuel => (some "registry cycle", proj)

/-- restore (source lines 549-611): find the checkpoint whose name
equals or contains the query, newest first; a dry run only resolves the
chain and reports; a real restore first creates the forced FULL
emergency backup of the current state and aborts when that fails, then
replays the target checkpoint over the project directory.  The
empty-directory sweep of the source has no analogue in a flat path
model. -/
def restore (w : World) (checkpointName : String) (dryRun : Bool) :
    RestoreResult × World × List Ev :=
  let checkpoints := getCheckpoints w.store
  match findRestoreTarget checkpoints checkpointName with
  | none =>
    ({ success := false,
       error := some ("Checkpoint not found: " ++ checkpointName) }, w, [])
  | some checkpoint =>
    if dryRun then
      match buildCheckpointChain (checkpoints.length + 1) checkpoints checkpoint with
      | .ok chain =>
        ({ success := true, dryRun := true, chainLength := chain.length }, w, [])
      | _ => ({ success := false, error := some "chain resolution failed" }, w, [])
    else
      let emergencyName := "emergency_backup_" ++ tsSlug w.now
      let backup := create w (some emergencyName) (some "Auto-backup before restore") true
      let ev1 := Ev.backupAttempt :: backup.2.2
      if !backup.1.success then
        ({ success := false, error := some "Failed to create emergency backup" },
         backup.2.1, ev1)
      else
        let applied :=
          if checkpoint.type == some "FULL" || typeFalsy checkpoint.type then
            restoreFullW backup.2.1.store checkpoint backup.2.1.project
          else restoreIncrW backup.2.1.store checkpoint backup.2.1.project
        match applied with
        | (some e, p2) =>
          ({ success := false, error := some e },
           { backup.2.1 with project := p2 }, ev1 ++ [Ev.mutateProject])
        | (none, p2) =>
          ({ success := true, emergencyBackup := some emergencyName,
             restored := some checkpoint.name,
             rtype := some (if typeFalsy checkpoint.type then "FULL"
               else checkpoint.type.getD "FULL") },
           { backup.2.1 with project := p2 }, ev1 ++ [Ev.mutateProject])

/-- The failing input of claim C2: one tracked file, empty store. -/
def c2World : World :=
  { store := [], project := [("a.txt", 1)], now := 0, config := defaultConfig }

/-- C2: the Snapshot Writer writes the manifest BEFORE the payload.
Evaluating create at the failing input (one tracked file, empty store,
so a FULL checkpoint is persisted) yields the trace mkdir, manifest
write, payload write: the manifest write strictly precedes the payload
write, so a crash between the two leaves a valid manifest with no
payload visible to the Registry, violating the specified
payload-then-manifest order.  The INCREMENTAL branch likewise writes
the manifest before copying the delta payload and rewrites it after;
the published part_007 variant has the same manifest-first order. -/
theorem create_manifest_before_payload :
    (create c2World (some "cp") none false).2.2 =
      [Ev.mkdirSnapshot "cp_0",
       Ev.writeManifest "cp_0"
         (snapFull "cp_0" 0 "Manual checkpoint" [("a.txt", 1)]).manifest,
       Ev.writePayload "cp_0" (some [("a.txt", 1)])] := by
  rfl

/-- A create whose project is nonempty succeeds when forced. -/
theorem create_forced_success (w : World) (n d : Option String)
    (h1 : (projectFiles w.project).isEmpty = false) :
    (create w n d true).1.success = true := by
  simp [create, h1]

/-- A failed create leaves the world untouched and emits no events
(with force set, as the restore emergency backup is, the only failure
is an empty tracked-file list). -/
theorem create_forced_fail_frame (w : World) (n d : Option String)
    (h : (create w n d true).1.success = false) :
    (create w n d true).2.1 = w ∧ (create w n d true).2.2 = [] := by
  by_cases h1 : (projectFiles w.project).isEmpty
  · simp [create, h1]
  · rw [create_forced_success w n d (by simpa using h1)] at h
    cases h

/-- C7: a non-dry-run restore that finds its target attempts the
emergency backup before anything else: its trace starts with the backup
attempt; if the backup create fails, restore returns a failure, the
project file tree is exactly the pre-restore one and the trace holds no
project mutation; and when the backup succeeds the trace continues with
the mkdir, manifest write and payload write of a FULL snapshot whose
manifest fingerprints the pre-restore project state, all before the
project mutation marker. -/
theorem restore_spec (w : World) (q : String) (cp : Manifest)
    (hfind : findRestoreTarget (getCheckpoints w.store) q = some cp) :
    ((restore w q false).2.2).head? = some Ev.backupAttempt ∧
    ((create w (some ("emergency_backup_" ++ tsSlug w.now))
        (some "Auto-backup before restore") true).1.success = false →
      (restore w q false).1.success = false ∧
      (restore w q false).2.1.project = w.project ∧
      Ev.mutateProject ∉ (restore w q false).2.2) ∧
    ((projectFiles w.project).isEmpty = false →
      ∃ suffix, (restore w q false).2.2 =
        Ev.backupAttempt ::
        Ev.mkdirSnapshot ("emergency_backup_" ++ tsSlug w.now ++ "_" ++ tsSlug w.now) ::
        Ev.writeManifest ("emergency_backup_" ++ tsSlug w.now ++ "_" ++ tsSlug w.now)
          (snapFull ("emergency_backup_" ++ tsSlug w.now ++ "_" ++ tsSlug w.now) w.now
            "Auto-backup before restore" w.project).manifest ::
        Ev.writePayload ("emergency_backup_" ++ tsSlug w.now ++ "_" ++ tsSlug w.now)
          (some (capturePaths (projectFiles w.project) w.project)) :: suffix) ∧
    (snapFull ("emergency_backup_" ++ tsSlug w.now ++ "_" ++ tsSlug w.now) w.now
      "Auto-backup before restore" w.project).manifest.type = some "FULL" ∧
    (snapFull ("emergency_backup_" ++ tsSlug w.now ++ "_" ++ tsSlug w.now) w.now
      "Auto-backup before restore" w.project).manifest.fileHashes =
      capturePaths (projectFiles w.project) w.project := by
  refine ⟨?_, ?_, ?_, rfl, rfl⟩
  · simp only [restore, hfind]
    by_cases hs : (create w (some ("emergency_backup_" ++ tsSlug w.now))
        (some "Auto-backup before restore") true).1.success
    · rcases happ : (if cp.type == some "FULL" || typeFalsy cp.type then
          restoreFullW (create w (some ("emergency_backup_" ++ tsSlug w.now))
            (some "Auto-backup before restore") true).2.1.store cp
            (create w (some ("emergency_backup_" ++ tsSlug w.now))
              (some "Auto-backup before restore") true).2.1.project
        else restoreIncrW (create w (some ("emergency_backup_" ++ tsSlug w.now))
            (some "Auto-backup before restore") true).2.1.store cp
            (create w (some ("emergency_backup_" ++ tsSlug w.now))
              (some "Auto-backup before restore") true).2.1.project) with ⟨e, p2⟩
      cases e <;> simp [hs, happ]
    · simp [hs]
  · intro hfail
    obtain ⟨hw, hev⟩ := create_forced_fail_frame w _ _ hfail
    simp only [restore, hfind]
    rw [hfail, hw, hev]
    simp
  · intro hne
    have hs := create_forced_success w
      (some ("emergency_backup_" ++ tsSlug w.now))
      (some "Auto-backup before restore") hne
    simp only [restore, hfind]
    rw [hs]
    have hev : (create w (some ("emergency_backup_" ++ tsSlug w.now))
        (some "Auto-backup before restore") true).2.2 =
        Ev.mkdirSnapshot ("emergency_backup_" ++ tsSlug w.now ++ "_" ++ tsSlug w.now) ::
        Ev.writeManifest ("emergency_backup_" ++ tsSlug w.now ++ "_" ++ tsSlug w.now)
          (snapFull ("emergency_backup_" ++ tsSlug w.now ++ "_" ++ tsSlug w.now) w.now
            "Auto-backup before restore" w.project).manifest ::
        Ev.writePayload ("emergency_backup_" ++ tsSlug w.now ++ "_" ++ tsSlug w.now)
          (some (capturePaths (projectFiles w.project) w.project)) ::
        (cleanupOldCheckpoints w.config
          (w.store.filter (fun e =>
            !(e.dirName == "emergency_backup_" ++ tsSlug w.now ++ "_" ++ tsSlug w.now)) ++
           [entryOfSnap ("emergency_backup_" ++ tsSlug w.now ++ "_" ++ tsSlug w.now)
             (snapFull ("emergency_backup_" ++ tsSlug w.now ++ "_" ++ tsSlug w.now) w.now
               "Auto-backup before restore" w.project)])).2 := by
      have hne2 : ¬ w.project = [] := by
        simpa [projectFiles] using hne
      simp [create, hne2, snapFull, capturePaths, projectFiles, generateCheckpointName]
    rcases happ : (if cp.type == some "FULL" || typeFalsy cp.type then
        restoreFullW (create w (some ("emergency_backup_" ++ tsSlug w.now))
          (some "Auto-backup before restore") true).2.1.store cp
          (create w (some ("emergency_backup_" ++ tsSlug w.now))
            (some "Auto-backup before restore") true).2.1.project
      else restoreIncrW (create w (some ("emergency_backup_" ++ tsSlug w.now))
          (some "Auto-backup before restore") true).2.1.store cp
          (create w (some ("emergency_backup_" ++ tsSlug w.now))
            (some "Auto-backup before restore") true).2.1.project) with ⟨e, p2⟩
    cases e with
    | none =>
      simp only [hev, List.cons_append, List.nil_append, List.append_assoc]
      exact ⟨_, rfl⟩
    | some err =>
      simp only [hev, List.cons_append, List.nil_append, List.append_assoc]
      exact ⟨_, rfl⟩

/-- Store entry of the C7 witness: one FULL checkpoint. -/
def c7Entry : StoreEntry :=
  entryOfSnap "full_1" (snapFull "full_1" 1 "" [("a", 1)])

/-- World of the C7 witness. -/
def c7World : World :=
  { store := [c7Entry], project := [("a", 2)], now := 5, config := defaultConfig }

/-- Witness for restore_spec: at a concrete world whose registry holds
one FULL checkpoint, the non-dry-run restore trace starts with the
emergency backup attempt. -/
theorem restore_spec_witness :
    ((restore c7World "full" false).2.2).head? = some Ev.backupAttempt :=
  (restore_spec c7World "full" (snapFull "full_1" 1 "" [("a", 1)]).manifest
    (by decide)).1

/-- World with no tracked files, for the C6 counterexample. -/
def c6EmptyWorld : World :=
  { store := [], project := [], now := 100, config := defaultConfig }

/-- A registry entry five seconds old, for the C6 scenarios. -/
def c6OldEntry : StoreEntry :=
  { dirName := "old", isDir := true,
    manifest := some (mkMan "old" 95 (some "FULL") 1),
    archive := some [], addedFiles := [], modifiedFiles := [], deletedJson := [] }

/-- World whose newest checkpoint is five seconds old, for the C6
counterexample. -/
def c6NamedWorld : World :=
  { store := [c6OldEntry], project := [("a", 1)], now := 100,
    config := defaultConfig }

/-- C6 counterexample: (i) with no tracked files create returns a plain
failure carrying no distinguishing flag — noChanges and tooRecent both
false, the same shape as a genuine failure — and (ii) an unforced call
made five seconds after the newest checkpoint, inside the 30-second
cooldown window, but carrying a custom name proceeds and writes a new
checkpoint, growing the store; each refutes the claim as stated. -/
theorem createCp_noop_counterexample :
    ((createCp c6EmptyWorld none none false).1.success = false ∧
     (createCp c6EmptyWorld none none false).1.noChanges = false ∧
     (createCp c6EmptyWorld none none false).1.tooRecent = false) ∧
    ((createCp c6NamedWorld (some "x") none false).1.success = true ∧
     (createCp c6NamedWorld (some "x") none false).2.1.store.length = 2) := by
  exact ⟨⟨rfl, rfl, rfl⟩, rfl, rfl⟩

/-- C6 amended: in the cooldown-enabled create of the published
variant, (a) with no tracked files create returns a plain failure with
no distinguishing flag, the world unchanged and nothing written; (b) an
unforced call without a custom name within 30 seconds of the newest
checkpoint returns the too-recent outcome flagged tooRecent, the world
unchanged; (c) an unforced call that detects no changes and is not
caught by the cooldown returns the no-changes outcome flagged
noChanges, the world unchanged.  Only the no-change and too-recent
no-ops are distinguishable by a flag; the no-tracked-files no-op is
not. -/
theorem createCp_noop_spec (w : World) (name description : Option String)
    (force : Bool) :
    ((projectFiles w.project).isEmpty = true →
      createCp w name description force =
        ({ success := false, error := some "No files found to checkpoint" },
         w, [])) ∧
    (∀ lc, (projectFiles w.project).isEmpty = false →
      (getCheckpoints w.store).head? = some lc →
      (!force && name.isNone && decide (w.now - lc.timestamp < 30)) = true →
      createCp w name description force =
        ({ success := false, error := some "Checkpoint created too recently",
           tooRecent := true }, w, [])) ∧
    (∀ lc, (projectFiles w.project).isEmpty = false →
      (getCheckpoints w.store).head? = some lc →
      (!force && name.isNone && decide (w.now - lc.timestamp < 30)) = false →
      force = false →
      calculateChanges (projectFiles w.project) (fun f => List.lookup f w.project)
          (some lc.fileHashes) = { added := [], modified := [], deleted := [] } →
      createCp w name description force =
        ({ success := false,
           error := some "No changes detected since last checkpoint",
           noChanges := true }, w, [])) := by
  refine ⟨?_, ?_, ?_⟩
  · intro h
    have h2 : w.project = [] := by simpa [projectFiles] using h
    simp [createCp, h2, projectFiles]
  · intro lc hne hlc hcool
    have hne2 : ¬ w.project = [] := by simpa [projectFiles] using hne
    simp [createCp, hne2, hlc, hcool, projectFiles]
  · intro lc hne hlc hcool hf hch
    have hne2 : ¬ w.project = [] := by simpa [projectFiles] using hne
    subst hf
    simp at hcool
    simp [createCp, hne2, hlc, projectFiles]
    have hc1 : ¬ (name = none ∧ w.now - lc.timestamp < 30) := by
      rintro ⟨h1, h2⟩
      exact absurd h2 (Nat.not_lt.mpr (hcool h1))
    simp only [projectFiles] at hch
    rw [if_neg hc1, if_pos ⟨⟨by rw [hch], by rw [hch]⟩, by rw [hch]⟩]

/-- Manifest of the no-changes leg of the C6 witness: it fingerprints
exactly the current project. -/
def c6NoChMan : Manifest :=
  { mkMan "old" 95 (some "FULL") 1 with fileHashes := [("a", 1)] }

/-- Store entry for the no-changes leg of the C6 witness: its manifest
fingerprints exactly the current project. -/
def c6NoChEntry : StoreEntry :=
  { dirName := "old", isDir := true, manifest := some c6NoChMan,
    archive := some [], addedFiles := [], modifiedFiles := [],
    deletedJson := [] }

/-- World for the no-changes leg of the C6 witness: the newest
checkpoint fingerprints exactly the current project and the cooldown
window has passed. -/
def c6NoChWorld : World :=
  { store := [c6NoChEntry], project := [("a", 1)], now := 200,
    config := defaultConfig }

/-- Witness for createCp_noop_spec: the three no-op conditions at
concrete worlds — empty project, unnamed unforced call five seconds
after the newest checkpoint, and an unchanged project outside the
cooldown window. -/
theorem createCp_noop_spec_witness :
    (createCp c6EmptyWorld none none false =
      ({ success := false, error := some "No files found to checkpoint" },
       c6EmptyWorld, [])) ∧
    (createCp c6NamedWorld none none false =
      ({ success := false, error := some "Checkpoint created too recently",
         tooRecent := true }, c6NamedWorld, [])) ∧
    (createCp c6NoChWorld none none false =
      ({ success := false,
         error := some "No changes detected since last checkpoint",
         noChanges := true }, c6NoChWorld, [])) := by
  refine ⟨(createCp_noop_spec c6EmptyWorld none none false).1 (by rfl),
    (createCp_noop_spec c6NamedWorld none none false).2.1
      (mkMan "old" 95 (some "FULL") 1) (by rfl) (by rfl) (by decide),
    (createCp_noop_spec c6NoChWorld none none false).2.2
      c6NoChMan (by decide) (by decide) (by decide) rfl (by decide)⟩

/-- A successful find? splits its list at the first hit. -/
theorem find?_eq_some_split {α : Type} (p : α → Bool) (l : List α) (a : α)
    (h : l.find? p = some a) :
    ∃ l1 l2, l = l1 ++ a :: l2 ∧ p a = true ∧ ∀ x ∈ l1, p x = false := by
  induction l with
  | nil => cases h
  | cons x xs ih =>
    cases hx : p x with
    | true =>
      simp only [List.find?, hx] at h
      cases h
      exact ⟨[], xs, rfl, hx, by intro y hy; cases hy⟩
    | false =>
      simp only [List.find?, hx] at h
      rcases ih h with ⟨l1, l2, heq, hpa, hall⟩
      refine ⟨x :: l1, l2, by rw [heq]; rfl, hpa, ?_⟩
      intro y hy
      rcases List.mem_cons.mp hy with h1 | h2
      · rw [h1]; exact hx
      · exact hall y h2

/-- find? finds something when some member matches. -/
theorem find?_isSome_of_mem {α : Type} (p : α → Bool) (l : List α) (a : α)
    (ha : a ∈ l) (hp : p a = true) : ∃ b, l.find? p = some b := by
  induction l with
  | nil => cases ha
  | cons x xs ih =>
    cases hx : p x with
    | true => exact ⟨x, by simp only [List.find?, hx]⟩
    | false =>
      simp only [List.find?, hx]
      rcases List.mem_cons.mp ha with h1 | h2
      · rw [h1] at hp
        rw [hp] at hx
        cases hx
      · exact ih h2

/-- C9: restore selects, in newest-first registry order, the first
checkpoint whose name equals the query or contains it as a substring;
whenever any listed checkpoint name contains the query, the selection
returns such a checkpoint — restore takes its found branch instead of
the not-found failure — and every strictly newer listed checkpoint
fails the match; so a query that is a proper substring of several names
restores a checkpoint whose full name the caller never supplied. -/
theorem findRestoreTarget_spec (w : World) (q : String) (cp : Manifest)
    (hm : cp ∈ getCheckpoints w.store) (hs : strIncludes cp.name q = true) :
    ∃ sel pre post,
      findRestoreTarget (getCheckpoints w.store) q = some sel ∧
      (sel.name == q || strIncludes sel.name q) = true ∧
      getCheckpoints w.store = pre ++ sel :: post ∧
      (∀ c ∈ pre, (c.name == q || strIncludes c.name q) = false) := by
  have hp : (cp.name == q || strIncludes cp.name q) = true := by
    rw [hs]
    simp
  rcases find?_isSome_of_mem (fun c => c.name == q || strIncludes c.name q)
    (getCheckpoints w.store) cp hm hp with ⟨sel, hfind⟩
  rcases find?_eq_some_split _ _ _ hfind with ⟨l1, l2, heq, hpa, hall⟩
  exact ⟨sel, l1, l2, hfind, hpa, heq, hall⟩

/-- Store of the C9 witness: two checkpoints whose names strictly
contain the query alpha. -/
def c9World : World :=
  { store := [entryOfSnap "alpha_1" (snapFull "alpha_1" 1 "" [("a", 1)]),
      entryOfSnap "alpha_2" (snapFull "alpha_2" 2 "" [("a", 2)])],
    project := [("a", 2)], now := 9, config := defaultConfig }

/-- Witness for findRestoreTarget_spec: the proper-substring query
alpha matches two checkpoint names and selects the newest, alpha_2, a
full name the caller never supplied. -/
theorem findRestoreTarget_spec_witness :
    (∃ sel pre post,
      findRestoreTarget (getCheckpoints c9World.store) "alpha" = some sel ∧
      (sel.name == "alpha" || strIncludes sel.name "alpha") = true ∧
      getCheckpoints c9World.store = pre ++ sel :: post ∧
      (∀ c ∈ pre, (c.name == "alpha" || strIncludes c.name "alpha") = false)) ∧
    (findRestoreTarget (getCheckpoints c9World.store) "alpha").map
      (fun m => m.name) = some "alpha_2" := by
  refine ⟨findRestoreTarget_spec c9World "alpha"
    (snapFull "alpha_1" 1 "" [("a", 1)]).manifest (by decide) (by decide), ?_⟩
  rfl

end ClaudePoint
